import Mathlib

/-!
Verification of the dependency-directory reconciliation engine implemented in
`tools/isobuild/meteor-npm.js`.

The JavaScript source is shallowly embedded: JS objects holding dependency
records become inductive types, path strings stay strings (with `pathJoin`
modelled as `dir ++ "/" ++ name`), the filesystem becomes an explicit state
record of existing directory and regular-file paths, and results of the
external collaborators (`npm` invocations, the connectivity probe, file
reads) are supplied by an `Env` record so the control flow of the engine
itself is modelled exactly.
-/

namespace MeteorNpm

/-! ### Basic string helpers -/

/-- Character-list length of a string (used to stay within pure list
reasoning instead of byte-position arithmetic). -/
def strLen (s : String) : Nat := s.data.length

/-- `p` is a (character-level) prefix of `s`. -/
def strPref (p s : String) : Bool := p.data.isPrefixOf s.data

/-- `s` ends with suffix `p` (character-level). -/
def strSuffix (p s : String) : Bool := p.data.isSuffixOf s.data

/-- A path `p` is the path `root` itself or lies strictly underneath it
(i.e. `root ++ "/"` is a prefix of `p`).  This is the reach of a recursive
removal or a rename of `root`. -/
def pathUnder (p root : String) : Bool := p == root || strPref (root ++ "/") p

/-! ### Modelled collaborator predicates -/

/-- `[0-9a-f]` hexadecimal digit, as in the sha-matching character class. -/
def isHexDig (c : Char) : Bool := c.isDigit || ('a' ≤ c && c ≤ 'f')

/-- `hexRun l n` holds when the first `n` characters of `l` exist and are
all hexadecimal digits. -/
def hexRun : List Char → Nat → Bool
  | _, 0 => true
  | [], _ + 1 => false
  | c :: cs, n + 1 => isHexDig c && hexRun cs n

/-- Some position of `l` starts a run of 40 hexadecimal digits. -/
def has40Hex : List Char → Bool
  | [] => hexRun [] 40
  | c :: cs => hexRun (c :: cs) 40 || has40Hex cs

/-- Modelled from the spec: `utils.isUrlWithSha` lives in
`tools/utils/utils.js`, which is not under `src/`.  The spec describes the
recognized specifiers as "a content-addressed remote-archive URL with
embedded integrity hash"; we model this as an http(s) URL containing a
40-hex-digit sha. -/
def isUrlWithShaSpec (s : String) : Bool :=
  (strPref "http://" s || strPref "https://" s) && has40Hex s.data

/-- Prefix match in which a `.` of the pattern matches any single character
of the subject, exactly like the unescaped dots of the JavaScript regular
expression used in `minimizeModule`. -/
def dotPatMatch : List Char → List Char → Bool
  | [], _ => true
  | _ :: _, [] => false
  | p :: ps, c :: cs => (p == '.' || p == c) && dotPatMatch ps cs

/-- The test `module.resolved.match(/^https:\/\/registry.npmjs.org\//)` from
`minimizeModule`: the string starts with `https://registry.npmjs.org/`,
where the two (unescaped) dots of the pattern match any character. -/
def matchesDefaultRegistry (s : String) : Bool :=
  dotPatMatch "https://registry.npmjs.org/".data s.data

/-! ### Dependency trees (`npm ls --json` / `npm-shrinkwrap.json` records) -/

/-- A dependency record as found in the output of `npm ls --json` or in
`npm-shrinkwrap.json`: a `version` string and optional `resolved`, `from`
and `dependencies` fields (absent JS fields are `none`; the `from` field is
called `fromSpec` because `from` is a Lean keyword). -/
inductive NpmModule : Type where
  | mk : (version : String) → (resolved : Option String) →
      (fromSpec : Option String) →
      (deps : Option (List (String × NpmModule))) → NpmModule

def NpmModule.version : NpmModule → String
  | .mk v _ _ _ => v

def NpmModule.resolved : NpmModule → Option String
  | .mk _ r _ _ => r

def NpmModule.fromSpec : NpmModule → Option String
  | .mk _ _ f _ => f

def NpmModule.deps : NpmModule → Option (List (String × NpmModule))
  | .mk _ _ _ d => d

/-- A node of the minimized lock tree written back to
`npm-shrinkwrap.json`: only a `version` and an optional `dependencies`
field exist (this is the whole output shape of `minimizeModule`). -/
inductive MinModule : Type where
  | mk : (version : String) → (deps : Option (List (String × MinModule))) → MinModule

def MinModule.version : MinModule → String
  | .mk v _ => v

def MinModule.deps : MinModule → Option (List (String × MinModule))
  | .mk _ d => d

/-- The test `utils.isUrlWithSha(depObj.from)` applied to an optional `from`
field; a JS `undefined` argument never passes the sha-URL test. -/
def fromShaTest (isU : String → Bool) : Option String → Bool
  | some f => isU f
  | none => false

/-- `canonicalVersion` from meteor-npm.js: the `from` field when it is a
sha-carrying URL, else the plain `version`.  (The `resolved` field is not
consulted here.) -/
def canonicalVersion (isU : String → Bool) (m : NpmModule) : String :=
  match m.fromSpec with
  | some f => if isU f then f else m.version
  | none => m.version

/-- The version selected by `minimizeModule`: a non-empty `resolved`
location that does not match the default registry wins (a JS empty string
is falsy, hence the non-emptiness test); otherwise a sha-carrying `from`
URL; otherwise the plain `version`. -/
def minVer (isU : String → Bool) (r f : Option String) (v : String) : String :=
  match r with
  | some rr =>
    if rr != "" && !matchesDefaultRegistry rr then rr
    else match f with
      | some ff => if isU ff then ff else v
      | none => v
  | none =>
    match f with
    | some ff => if isU ff then ff else v
    | none => v

mutual

/-- `minimizeModule` from `minimizeDependencyTree`: rebuild the node with
only the selected version, recursing into `dependencies` exactly when the
field is present (a present-but-empty JS object is truthy and is kept). -/
def minimizeModule (isU : String → Bool) : NpmModule → MinModule
  | .mk v r f d =>
    .mk (minVer isU r f v)
      (match d with
       | none => none
       | some l => some (minimizeDeps isU l))

/-- Pointwise minimization of a `dependencies` map (iterated in object
order, as `_.each` does). -/
def minimizeDeps (isU : String → Bool) : List (String × NpmModule) → List (String × MinModule)
  | [] => []
  | (n, m) :: rest => (n, minimizeModule isU m) :: minimizeDeps isU rest

end

/-- `minimizeDependencyTree`: the returned top-level object is
`{dependencies: …}`, mapping every top-level dependency through
`minimizeModule`; iterating over an absent `dependencies` field yields the
empty map. -/
def minimizeDependencyTree (isU : String → Bool) (t : NpmModule) : List (String × MinModule) :=
  match t.deps with
  | none => []
  | some l => minimizeDeps isU l

/-! ### Diffing installed dependencies against the manifest -/

/-- `treeToDependencies`: map the top level of a dependency tree to
`name ↦ canonicalVersion`. -/
def treeToDependencies (isU : String → Bool) (tree : NpmModule) : List (String × String) :=
  match tree.deps with
  | none => []
  | some l => l.map (fun p => (p.1, canonicalVersion isU p.2))

/-- JS object lookup for an association list built by `_.object`: a later
binding of the same key overwrites an earlier one, so the last binding
wins; a missing key is `undefined` (`none`). -/
def objLookup (l : List (String × String)) (k : String) : Option String :=
  (l.reverse.find? (fun p => p.1 == k)).map (fun p => p.2)

/-- The argument emitted for one differing manifest entry: the raw
specifier when it is a sha-carrying URL, else `name@version`. -/
def installArgOf (isU : String → Bool) (p : String × String) : String :=
  if isU p.2 then p.2 else p.1 ++ "@" ++ p.2

/-- One step of the `_.each(npmDependencies, …)` loop in
`installNpmModules`: push an install argument unless the installed
canonical version already equals the manifest specifier. -/
def installPushStep (isU : String → Bool) (installed : List (String × String))
    (args : List String) (p : String × String) : List String :=
  if objLookup installed p.1 == some p.2 then args
  else args ++ [installArgOf isU p]

/-- The full `npm install` argument list computed by `installNpmModules`:
starts from `["install"]` and pushes one argument per differing manifest
entry, in manifest order. -/
def npmInstallArgs (isU : String → Bool) (manifest installed : List (String × String)) :
    List String :=
  manifest.foldl (installPushStep isU installed) ["install"]

/-! ### Filesystem model

The filesystem is a record of the existing directory paths and the existing
regular-file paths.  `files.pathJoin dir name` is `dir ++ "/" ++ name`;
`files.rm_recursive p` removes `p` and everything underneath it;
`files.rename src dst` moves the whole subtree rooted at `src` (failing
with `ENOENT` when `src` does not exist); `files.mkdir_p` and
`files.writeFile` add a path.  File contents are not tracked; reads are
supplied by the environment record. -/

/-- Error codes of filesystem operations. -/
inductive FsError : Type where
  | enoent : FsError
  | other : String → FsError
deriving DecidableEq

/-- The modelled filesystem: the set of existing directories and the set of
existing regular files. -/
structure FS : Type where
  dirs : List String
  regs : List String
deriving DecidableEq

def FS.existsPath (fs : FS) (p : String) : Bool :=
  decide (p ∈ fs.dirs) || decide (p ∈ fs.regs)

def FS.isDir (fs : FS) (p : String) : Bool :=
  decide (p ∈ fs.dirs)

/-- `files.rm_recursive root`: drop every path that is `root` or below. -/
def FS.rmRec (fs : FS) (root : String) : FS :=
  ⟨fs.dirs.filter (fun q => !pathUnder q root), fs.regs.filter (fun q => !pathUnder q root)⟩

/-- `files.mkdir_p`: ensure a directory path exists. -/
def FS.mkdirp (fs : FS) (p : String) : FS :=
  if p ∈ fs.dirs then fs else ⟨p :: fs.dirs, fs.regs⟩

/-- `files.writeFile` / `files.copyFile` destination: ensure a regular
file path exists (contents are not tracked). -/
def FS.writeFile (fs : FS) (p : String) : FS :=
  if p ∈ fs.regs then fs else ⟨fs.dirs, p :: fs.regs⟩

/-- Where one existing path moves under `files.rename src dst`: paths at or
below `src` are re-rooted at `dst`, all others stay. -/
def mvPath (src dst p : String) : String :=
  if pathUnder p src then ⟨dst.data ++ p.data.drop (strLen src)⟩ else p

/-- The successful-rename relocation of every path. -/
def FS.renameMap (fs : FS) (src dst : String) : FS :=
  ⟨fs.dirs.map (mvPath src dst), fs.regs.map (mvPath src dst)⟩

/-- `files.rename src dst`: relocate the subtree, or fail with `ENOENT`
when the source does not exist. -/
def FS.renameTree (fs : FS) (src dst : String) : Except FsError FS :=
  if fs.existsPath src then .ok (fs.renameMap src dst) else .error .enoent

/-! ### The reconciliation engine -/

/-- Exceptions travelling through `updateDependencies`: the internal
`NpmFailure` sentinel (caught and turned into `false`), a programming
error thrown with `new Error(msg)`, and a propagated filesystem error. -/
inductive Exc : Type where
  | npmFailure : Exc
  | fatal : String → Exc
  | fsErr : FsError → Exc
deriving DecidableEq

/-- Result of one engine step: the filesystem together with a value, or the
filesystem at the moment an exception was raised. -/
inductive Outcome (α : Type) : Type where
  | ok : FS → α → Outcome α
  | err : FS → Exc → Outcome α
deriving DecidableEq

/-- Results of the external collaborators for one reconciliation run: the
host platform and Node version, the connectivity probe, whether the `npm
install` and `npm shrinkwrap` invocations succeed, the parsed trees read
from `npm ls --json` and from the freshly written `npm-shrinkwrap.json`,
the result of reading `node_modules/.node_version`, the sha-URL recognizer
and the disk effects of the external `npm install` and `npm
prune`/`npm dedupe` runs.  (Runs in which the `npm ls --json` output fails
to parse are outside this model.) -/
structure Env : Type where
  platform : String
  processVersion : String
  online : Bool
  installOk : Bool
  shrinkwrapOk : Bool
  lsTree : NpmModule
  shrinkwrapTree : NpmModule
  nodeVersionRead : Except FsError String
  isUrl : String → Bool
  installEffect : FS → FS
  pruneDedupeEffect : FS → FS

/-- Strip a trailing `.<digits>` (at least one digit) and replace it by
`.*`, as the regular expression `\.(\d+)$` does. -/
def replaceLastNumSuffix (l : List Char) : List Char :=
  let r := l.reverse
  let ds := r.takeWhile (fun c => c.isDigit)
  let rest := r.dropWhile (fun c => c.isDigit)
  match ds, rest with
  | _ :: _, '.' :: rest2 => rest2.reverse ++ ['.', '*']
  | _, _ => l

/-- `currentNodeCompatibilityVersion`: `process.version` with its patch
component replaced by `.*`, plus a trailing newline. -/
def currentNodeCompatibilityVersion (processVersion : String) : String :=
  String.mk (replaceLastNumSuffix processVersion.data) ++ "\n"

/-- `ensureConnected`: reachable registry, or a reported recoverable
failure (`NpmFailure`). -/
def ensureConnected (env : Env) : Except Exc Unit :=
  if env.online then .ok () else .error .npmFailure

/-- The `oldNodeVersion` computation of `updateExistingNpmDirectory`: the
stamp file's contents, the fixed fallback `v0.8.24` when the read fails
with `ENOENT`, or the propagated read error otherwise. -/
def readOldNodeVersion (env : Env) : Except FsError String :=
  match env.nodeVersionRead with
  | .ok s => .ok s
  | .error .enoent => .ok "v0.8.24"
  | .error e => .error e

/-- The node-version stamp check of `updateExistingNpmDirectory`: when
`node_modules` exists and the stamped version differs from the current
compatibility version, the `node_modules` subtree is recursively
deleted. -/
def stampCheck (env : Env) (fs : FS) (dir : String) : Outcome Unit :=
  let nm := dir ++ "/node_modules"
  if fs.existsPath nm then
    match readOldNodeVersion env with
    | .error e => .err fs (.fsErr e)
    | .ok oldV =>
      .ok (if oldV ≠ currentNodeCompatibilityVersion env.processVersion
           then fs.rmRec nm else fs) ()
  else .ok fs ()

/-- The relative paths under `node_modules` containing a colon, as
computed by `files.findPathsWithRegex(".", /:/, {cwd: node_modules})`. -/
def colonPaths (fs : FS) (nm : String) : List String :=
  (((fs.dirs ++ fs.regs).filter (fun p => pathUnder p nm && !(p == nm))).map
    (fun p => (⟨p.data.drop (strLen nm + 1)⟩ : String))).filter
    (fun rel => rel.data.any (fun c => c == ':'))

/-- The offending-path report built for the colon failure: the first ten
paths, followed, when more were found, by one line counting the omitted
remainder. -/
def colonReport (paths : List String) : List String :=
  let firstTen := paths.take 10
  if paths.length > 10 then
    firstTen ++ ["... " ++ toString (paths.length - 10) ++ " paths omitted."]
  else firstTen

/-- `installNpmModules`: ensure `node_modules` exists, write
`package.json`, probe connectivity, compute the minimal install argument
list, run `npm install`, and on non-Windows hosts reject trees containing
colon paths.  Failures of the probe, the installer, and the colon check
are reported and raised as `NpmFailure`. -/
def installNpmModules (env : Env) (manifest : List (String × String)) (dir : String)
    (fs : FS) : Outcome Unit :=
  let nm := dir ++ "/node_modules"
  let fs1 := fs.mkdirp nm
  let fs2 := fs1.writeFile (dir ++ "/package.json")
  match ensureConnected env with
  | .error e => .err fs2 e
  | .ok _ =>
    let installed := treeToDependencies env.isUrl env.lsTree
    let _args := npmInstallArgs env.isUrl manifest installed
    if !env.installOk then .err fs2 .npmFailure
    else
      let fs3 := env.installEffect fs2
      if env.platform != "win32" then
        let cp := colonPaths fs3 nm
        let _report := colonReport cp
        if cp.isEmpty then .ok fs3 () else .err fs3 .npmFailure
      else .ok fs3 ()

/-- `completeNpmDirectory`: run `npm shrinkwrap` (recoverable failure when
it exits non-zero), rewrite the shrinkwrap file minimized, move
`package.json` to `node_modules/.package.json`, copy the shrinkwrap into
`node_modules/.npm-shrinkwrap.json`, and write the README, the
`.node_version` stamp and the `.gitignore`. -/
def completeNpmDirectory (env : Env) (dir : String) (fs : FS) : Outcome Unit :=
  if !env.shrinkwrapOk then .err fs .npmFailure
  else
    let fs1 := fs.writeFile (dir ++ "/npm-shrinkwrap.json")
    let _minimized := minimizeDependencyTree env.isUrl env.shrinkwrapTree
    let fs2 := fs1.writeFile (dir ++ "/npm-shrinkwrap.json")
    match fs2.renameTree (dir ++ "/package.json") (dir ++ "/node_modules/.package.json") with
    | .error e => .err fs2 (.fsErr e)
    | .ok fs3 =>
      let fs4 := fs3.writeFile (dir ++ "/node_modules/.npm-shrinkwrap.json")
      let fs5 := fs4.writeFile (dir ++ "/README")
      let fs6 := fs5.writeFile (dir ++ "/node_modules/.node_version")
      let fs7 := fs6.writeFile (dir ++ "/.gitignore")
      .ok fs7 ()

/-- `updateExistingNpmDirectory`: sanity-check the directory (fatal errors
when it is not a directory or lacks `npm-shrinkwrap.json`), run the
node-version stamp check, recreate `node_modules` when its hidden metadata
copies are missing, install, run the non-fatal `npm prune`/`npm dedupe`
cleanup passes when `node_modules` pre-existed, and finalize. -/
def updateExistingNpmDirectory (env : Env) (manifest : List (String × String))
    (dir : String) (fs : FS) : Outcome Unit :=
  if !fs.isDir dir then
    .err fs (.fatal "Corrupted .npm directory -- should be a directory")
  else if !fs.existsPath (dir ++ "/npm-shrinkwrap.json") then
    .err fs (.fatal "Corrupted .npm directory -- missing npm-shrinkwrap.json")
  else
    let nm := dir ++ "/node_modules"
    match stampCheck env fs dir with
    | .err fs1 e => .err fs1 e
    | .ok fs1 _ =>
      let fs2 :=
        if fs1.existsPath nm &&
            (!fs1.existsPath (nm ++ "/.package.json") ||
             !fs1.existsPath (nm ++ "/.npm-shrinkwrap.json"))
        then fs1.rmRec nm else fs1
      let existed := fs2.existsPath nm
      match installNpmModules env manifest dir fs2 with
      | .err fs3 e => .err fs3 e
      | .ok fs3 _ =>
        let fs4 := if existed then env.pruneDedupeEffect fs3 else fs3
        completeNpmDirectory env dir fs4

/-- `createFreshNpmDirectory`: install then finalize (the log line is
silent in the model). -/
def createFreshNpmDirectory (env : Env) (manifest : List (String × String))
    (dir : String) (fs : FS) : Outcome Unit :=
  match installNpmModules env manifest dir fs with
  | .err fs1 e => .err fs1 e
  | .ok fs1 _ => completeNpmDirectory env dir fs1

/-- The pre-dispatch corruption sweep of `updateDependencies`: a directory
without `npm-shrinkwrap.json` is recursively deleted. -/
def corruptionSweep (fs : FS) (dir : String) : FS :=
  if fs.existsPath dir && !fs.existsPath (dir ++ "/npm-shrinkwrap.json")
  then fs.rmRec dir else fs

/-- The `try`/`catch` of `updateDependencies`: `NpmFailure` becomes the
return value `false`, success becomes `true`, anything else propagates. -/
def catchNpmFailure : Outcome Unit → Outcome Bool
  | .ok fs _ => .ok fs true
  | .err fs .npmFailure => .ok fs false
  | .err fs e => .err fs e

/-- The empty-manifest branch of `updateDependencies`, as a function of the
result of the attempted rename: `ENOENT` means the directory never existed
(return `false`), any other rename error propagates, and a successful
rename is followed by recursive deletion of the temporary (return
`false`). -/
def emptyBranchHandler (fs : FS) (tmp : String) : Except FsError FS → Outcome Bool
  | .error .enoent => .ok fs false
  | .error e => .err fs (.fsErr e)
  | .ok fs1 => .ok (fs1.rmRec tmp) false

/-- `meteorNpm.updateDependencies`: empty manifest deletes the directory
via rename-then-delete; otherwise sweep corruption, dispatch to the
incremental or the fresh path, and catch `NpmFailure` as `false`. -/
def updateDependencies (env : Env) (manifest : List (String × String))
    (dir token : String) (fs : FS) : Outcome Bool :=
  if manifest.isEmpty then
    let tmp := dir ++ "-temp-" ++ token
    emptyBranchHandler fs tmp (fs.renameTree dir tmp)
  else
    let fs1 := corruptionSweep fs dir
    if fs1.existsPath dir then
      catchNpmFailure (updateExistingNpmDirectory env manifest dir fs1)
    else
      catchNpmFailure (createFreshNpmDirectory env manifest dir fs1)

/-- Filesystem operations recorded by the empty-manifest branch, in
execution order (used to state that deletion happens under the temporary
name only, after the rename). -/
inductive FsOp : Type where
  | rename : String → String → FsOp
  | rmRec : String → FsOp
deriving DecidableEq

/-- The operation trace of the empty-manifest branch: the rename is always
attempted; the recursive delete (of the temporary name) runs only when the
rename succeeded. -/
def emptyManifestOps (fs : FS) (dir tmp : String) : List FsOp :=
  match fs.renameTree dir tmp with
  | .ok _ => [.rename dir tmp, .rmRec tmp]
  | .error _ => [.rename dir tmp]

/-! ### Portability scan (`dependenciesArePortable`) -/

/-- A directory entry as seen by the recursive `search` of
`dependenciesArePortable`: a named file or a named directory with its
children (in `readdir` order). -/
inductive FsEntry : Type where
  | file : String → FsEntry
  | dir : String → List FsEntry → FsEntry

/-- A name matches the native-artifact test `/\.node$/`. -/
def endsWithNode (n : String) : Bool := strSuffix ".node" n

mutual

/-- Truthiness of the `search` predicate at one entry: the entry name
matches `/\.node$/`, or the entry is a directory whose subtree search
found a match (`_.find` stops at the first truthy item). -/
def searchEntry : FsEntry → Bool
  | .file n => endsWithNode n
  | .dir n cs => endsWithNode n || searchList cs

/-- Truthiness of `search` over a directory listing. -/
def searchList : List FsEntry → Bool
  | [] => false
  | e :: es => searchEntry e || searchList es

end

mutual

/-- Every file and directory name in one entry's subtree (entry itself
included). -/
def namesEntry : FsEntry → List String
  | .file n => [n]
  | .dir n cs => n :: namesList cs

/-- Every name in a listing's subtrees. -/
def namesList : List FsEntry → List String
  | [] => []
  | e :: es => namesEntry e ++ namesList es

end

/-- `meteorNpm.dependenciesArePortable`: no name in the `node_modules`
subtree (given as its listing) matches `/\.node$/`. -/
def dependenciesArePortable (nodeModulesListing : List FsEntry) : Bool :=
  !searchList nodeModulesListing

/-! ### Sample collaborator environments (concrete instantiations) -/

/-- A trivial dependency tree (no top-level dependencies). -/
def tree0 : NpmModule := .mk "0.0.0" none none none

/-- A benign Unix environment: online, all npm invocations succeed, no
`.node_version` stamp on disk, external disk effects are the identity. -/
def sampleEnv : Env :=
  Env.mk "linux" "v4.1.1" true true true tree0 tree0 (.error .enoent) isUrlWithShaSpec id id

/-- The benign environment on a Windows host. -/
def sampleEnvWin : Env :=
  Env.mk "win32" "v4.1.1" true true true tree0 tree0 (.error .enoent) isUrlWithShaSpec id id

/-- The benign environment with the registry unreachable. -/
def envOff : Env :=
  Env.mk "linux" "v4.1.1" false true true tree0 tree0 (.error .enoent) isUrlWithShaSpec id id

/-- A benign environment whose `.node_version` stamp reads as an old
version. -/
def envStale : Env :=
  Env.mk "linux" "v4.1.1" true true true tree0 tree0 (.ok "v0.10.*\n") isUrlWithShaSpec id id

/-- A benign environment whose `.node_version` stamp read fails with an
error other than `ENOENT`. -/
def envReadFail : Env :=
  Env.mk "linux" "v4.1.1" true true true tree0 tree0 (.error (.other "EACCES"))
    isUrlWithShaSpec id id

/-- A `.npm` directory holding only its shrinkwrap lock file. -/
def fsLock : FS := ⟨["d"], ["d/npm-shrinkwrap.json"]⟩

/-- A `.npm` directory with a populated `node_modules` subtree. -/
def fsFull : FS :=
  ⟨["d", "d/node_modules"], ["d/npm-shrinkwrap.json", "d/node_modules/x"]⟩

/-- A `.npm` directory whose `node_modules` contains a colon path. -/
def fsColon : FS := ⟨["d", "d/node_modules"], ["d/node_modules/a:b"]⟩

/-! ### Helper lemmas -/

theorem existsPath_true_iff (fs : FS) (p : String) :
    fs.existsPath p = true ↔ p ∈ fs.dirs ∨ p ∈ fs.regs := by
  simp [FS.existsPath]

theorem existsPath_false_iff (fs : FS) (p : String) :
    fs.existsPath p = false ↔ ¬(p ∈ fs.dirs ∨ p ∈ fs.regs) := by
  simp [FS.existsPath, not_or]

theorem pathUnder_self (p : String) : pathUnder p p = true := by
  simp [pathUnder]

theorem rmRec_existsPath (fs : FS) (root p : String) :
    (fs.rmRec root).existsPath p = (fs.existsPath p && !pathUnder p root) := by
  by_cases h : pathUnder p root <;>
    simp [FS.rmRec, FS.existsPath, List.mem_filter, h]

theorem data_append (a b : String) : (a ++ b).data = a.data ++ b.data := rfl

theorem strLen_append (a b : String) : strLen (a ++ b) = strLen a + strLen b := by
  simp [strLen, data_append]

theorem tmp_longer (dir suffix token : String) (h : 0 < strLen suffix) :
    strLen dir < strLen (dir ++ suffix ++ token) := by
  rw [strLen_append, strLen_append]
  omega

theorem mvPath_ne_src (src dst p : String) (h : strLen src < strLen dst) :
    mvPath src dst p ≠ src := by
  unfold mvPath
  split
  · intro he
    have hd := congrArg String.data he
    have hlen := congrArg List.length hd
    simp [strLen] at hlen h
    omega
  · next hp =>
    intro he
    subst he
    exact hp (pathUnder_self p)

theorem renameMap_kills_src (fs : FS) (src dst : String) (h : strLen src < strLen dst) :
    (fs.renameMap src dst).existsPath src = false := by
  rw [existsPath_false_iff]
  rintro (hm | hm) <;>
  · rcases List.mem_map.mp hm with ⟨p, _, hp⟩
    exact mvPath_ne_src src dst p h hp

theorem rename_rm_kills_src (fs : FS) (src dst : String) (h : strLen src < strLen dst) :
    ((fs.renameMap src dst).rmRec dst).existsPath src = false := by
  rw [rmRec_existsPath, renameMap_kills_src fs src dst h]
  rfl

mutual

theorem searchEntry_iff (e : FsEntry) :
    searchEntry e = true ↔ ∃ n, n ∈ namesEntry e ∧ endsWithNode n = true := by
  cases e with
  | file n => simp [searchEntry, namesEntry]
  | dir n cs =>
    rw [searchEntry, namesEntry]
    simp only [Bool.or_eq_true, searchList_iff cs, List.mem_cons]
    constructor
    · rintro (h | ⟨m, hm, hend⟩)
      · exact ⟨n, Or.inl rfl, h⟩
      · exact ⟨m, Or.inr hm, hend⟩
    · rintro ⟨m, (rfl | hm), hend⟩
      · exact Or.inl hend
      · exact Or.inr ⟨m, hm, hend⟩

theorem searchList_iff (l : List FsEntry) :
    searchList l = true ↔ ∃ n, n ∈ namesList l ∧ endsWithNode n = true := by
  cases l with
  | nil => simp [searchList, namesList]
  | cons e es =>
    rw [searchList, namesList]
    simp only [Bool.or_eq_true, searchEntry_iff e, searchList_iff es, List.mem_append]
    constructor
    · rintro (⟨m, hm, hend⟩ | ⟨m, hm, hend⟩)
      · exact ⟨m, Or.inl hm, hend⟩
      · exact ⟨m, Or.inr hm, hend⟩
    · rintro ⟨m, (hm | hm), hend⟩
      · exact Or.inl ⟨m, hm, hend⟩
      · exact Or.inr ⟨m, hm, hend⟩

end

/-- Claim C9: `dependenciesArePortable` scans the `node_modules` subtree
and returns `false` exactly when some file or directory name in the
subtree ends in `.node`.  (In the embedding the scan is a pure function;
the source's `_.find` stops at the first truthy item, which the
short-circuiting `||` of `searchEntry`/`searchList` mirrors.) -/
theorem claim_C9 (listing : List FsEntry) :
    dependenciesArePortable listing = false ↔
      ∃ n, n ∈ namesList listing ∧ endsWithNode n = true := by
  rw [dependenciesArePortable, Bool.not_eq_false']
  exact searchList_iff listing

theorem installArgs_foldl (isU : String → Bool) (installed : List (String × String))
    (l : List (String × String)) (acc : List String) :
    l.foldl (installPushStep isU installed) acc =
      acc ++ (l.filter
        (fun p => !(objLookup installed p.1 == some p.2))).map (installArgOf isU) := by
  induction l generalizing acc with
  | nil => simp
  | cons hd tl ih =>
    by_cases h : objLookup installed hd.1 == some hd.2 <;>
      simp [installPushStep, h, ih, List.filter_cons]

/-- Claim C3: the computed `npm install` argument list is the literal
`install` command followed by exactly one argument per manifest entry
whose installed canonical version differs from (or is absent relative to)
the manifest specifier, in manifest order — the raw specifier for
sha-carrying URLs, `name@version` otherwise — and no argument for an entry
whose installed canonical version matches; in particular, for the manifest
`{a: "1.0.0", b: "2.0.0"}` against a tree already holding `a@1.0.0`, only
`b@2.0.0` is requested. -/
theorem claim_C3 :
    (∀ (isU : String → Bool) (manifest installed : List (String × String)),
      npmInstallArgs isU manifest installed =
        "install" ::
          (manifest.filter
            (fun p => !(objLookup installed p.1 == some p.2))).map (installArgOf isU))
    ∧ npmInstallArgs isUrlWithShaSpec [("a", "1.0.0"), ("b", "2.0.0")]
        (treeToDependencies isUrlWithShaSpec
          (NpmModule.mk "0.0.0" none none
            (some [("a", NpmModule.mk "1.0.0" none none none)]))) =
        ["install", "b@2.0.0"] := by
  constructor
  · intro isU manifest installed
    rw [npmInstallArgs, installArgs_foldl]
    rfl
  · decide

/-- Claim C1 (counterexample): for a node with a non-default-registry
resolved location and a plain version, the diffing identity
`canonicalVersion` is the plain version, not the resolved location — so
the diffing identity and the lock-tree identity (`minimizeModule`) are not
computed by the same precedence, contrary to the claim. -/
theorem claim_C1_counterexample :
    canonicalVersion isUrlWithShaSpec
        (NpmModule.mk "1.0.0" (some "https://example.org/p.tgz") none none) = "1.0.0"
    ∧ (minimizeModule isUrlWithShaSpec
        (NpmModule.mk "1.0.0" (some "https://example.org/p.tgz") none none)).version =
        "https://example.org/p.tgz"
    ∧ matchesDefaultRegistry "https://example.org/p.tgz" = false
    ∧ canonicalVersion isUrlWithShaSpec
        (NpmModule.mk "1.0.0" (some "https://example.org/p.tgz") none none) ≠
      "https://example.org/p.tgz" := by
  refine ⟨by decide, ?_, by decide, by decide⟩
  simp [minimizeModule, MinModule.version]
  decide

/-- Claim C1 (amended): the lock-tree writer `minimizeModule` selects the
version by the three-step precedence (non-empty non-default-registry
resolved location, then sha-carrying `from` specifier, then plain
version), while the diffing function `canonicalVersion` uses only the
two-step precedence (sha-carrying `from` specifier, then plain version)
and ignores the resolved location entirely; consequently, for a node with
both a non-default resolved location and a plain version, the lock tree
records the resolved location but the diff uses the `from`/`version`
identity. -/
theorem claim_C1_amended :
    ∀ (isU : String → Bool) (v : String) (r f : Option String)
      (d : Option (List (String × NpmModule))),
      (canonicalVersion isU (.mk v r f d) = canonicalVersion isU (.mk v none f d))
      ∧ ((minimizeModule isU (.mk v r f d)).version = minVer isU r f v)
      ∧ (∀ rr, r = some rr → rr ≠ "" → matchesDefaultRegistry rr = false →
          minVer isU r f v = rr)
      ∧ ((r = none ∨ r = some "" ∨ (∃ rr, r = some rr ∧ matchesDefaultRegistry rr = true)) →
          minVer isU r f v = canonicalVersion isU (.mk v r f d))
      ∧ (∀ ff, f = some ff → isU ff = true → canonicalVersion isU (.mk v r f d) = ff)
      ∧ (fromShaTest isU f = false → canonicalVersion isU (.mk v r f d) = v) := by
  intro isU v r f d
  refine ⟨rfl, ?_, ?_, ?_, ?_, ?_⟩
  · simp [minimizeModule, MinModule.version]
  · rintro rr rfl hne hreg
    simp [minVer, bne_iff_ne, hne, hreg]
  · rintro (rfl | rfl | ⟨rr, rfl, hreg⟩)
    · simp [minVer, canonicalVersion, NpmModule.fromSpec, NpmModule.version]
    · simp [minVer, canonicalVersion, NpmModule.fromSpec, NpmModule.version]
    · simp [minVer, canonicalVersion, NpmModule.fromSpec, NpmModule.version, hreg]
  · rintro ff rfl hU
    simp [canonicalVersion, NpmModule.fromSpec, hU]
  · intro hF
    cases f with
    | none => rfl
    | some ff =>
      simp [fromShaTest] at hF
      simp [canonicalVersion, NpmModule.fromSpec, NpmModule.version, hF]

/-- Claim C1 (witness): the amended precedence instantiated at a node with
a non-default resolved location, and at a node with no sha `from`
specifier. -/
theorem claim_C1_witness :
    minVer isUrlWithShaSpec (some "https://example.org/q.tgz") none "3.0.0" =
      "https://example.org/q.tgz"
    ∧ canonicalVersion isUrlWithShaSpec
        (NpmModule.mk "3.0.0" (some "https://example.org/q.tgz") none none) = "3.0.0" :=
  ⟨(claim_C1_amended isUrlWithShaSpec "3.0.0" (some "https://example.org/q.tgz") none
      none).2.2.1 "https://example.org/q.tgz" rfl (by decide) (by decide),
   (claim_C1_amended isUrlWithShaSpec "3.0.0" (some "https://example.org/q.tgz") none
      none).2.2.2.2.2 (by decide)⟩

/-- Claim C2 (counterexample): a node whose `dependencies` field is a
present-but-empty map has no sub-dependencies, yet `minimizeModule` keeps
an (empty) `dependencies` field in the output instead of omitting it. -/
theorem claim_C2_counterexample :
    (NpmModule.mk "1.0.0" none none (some [])).deps = some []
    ∧ (minimizeModule isUrlWithShaSpec (NpmModule.mk "1.0.0" none none (some []))).deps =
        some []
    ∧ some ([] : List (String × MinModule)) ≠ none := by
  refine ⟨rfl, ?_, by simp⟩
  simp [minimizeModule, minimizeDeps, MinModule.deps]

theorem minimizeDeps_eq_map (isU : String → Bool) (l : List (String × NpmModule)) :
    minimizeDeps isU l = l.map (fun p => (p.1, minimizeModule isU p.2)) := by
  induction l with
  | nil => rw [minimizeDeps]; rfl
  | cons hd tl ih =>
    cases hd with
    | mk n m => rw [minimizeDeps, ih]; rfl

/-- Claim C2 (amended): `minimizeDependencyTree` is a pure total recursive
transform whose node output type carries exactly a `version` field and an
optional `dependencies` field; the output `dependencies` field is present
exactly when the input's `dependencies` field is present (a
present-but-empty map is preserved as an empty map, not omitted), maps
each sub-dependency name to its minimized node, and the output version is
the `minVer` precedence value (resolved location / sha `from` / plain
version); no other input field is preserved. -/
theorem claim_C2_amended :
    ∀ (isU : String → Bool) (m : NpmModule),
      ((minimizeModule isU m).deps = none ↔ m.deps = none)
      ∧ (∀ l, m.deps = some l →
          (minimizeModule isU m).deps =
            some (l.map (fun p => (p.1, minimizeModule isU p.2))))
      ∧ (minimizeModule isU m).version = minVer isU m.resolved m.fromSpec m.version := by
  intro isU m
  cases m with
  | mk v r f d =>
    cases d with
    | none =>
      refine ⟨by simp [minimizeModule, MinModule.deps, NpmModule.deps], ?_, ?_⟩
      · rintro l hl; simp [NpmModule.deps] at hl
      · simp [minimizeModule, MinModule.version, NpmModule.resolved, NpmModule.fromSpec,
          NpmModule.version]
    | some l =>
      refine ⟨by simp [minimizeModule, MinModule.deps, NpmModule.deps], ?_, ?_⟩
      · rintro l2 hl
        simp [NpmModule.deps] at hl
        subst hl
        simp [minimizeModule, MinModule.deps, minimizeDeps_eq_map]
      · simp [minimizeModule, MinModule.version, NpmModule.resolved, NpmModule.fromSpec,
          NpmModule.version]

/-- Claim C2 (witness): the amended shape statement instantiated at a node
with one sub-dependency. -/
theorem claim_C2_witness :
    (minimizeModule isUrlWithShaSpec
        (NpmModule.mk "2.0.0" none none
          (some [("x", NpmModule.mk "1.2.3" none none none)]))).deps =
      some [("x", minimizeModule isUrlWithShaSpec (NpmModule.mk "1.2.3" none none none))] :=
  (claim_C2_amended isUrlWithShaSpec
      (NpmModule.mk "2.0.0" none none
        (some [("x", NpmModule.mk "1.2.3" none none none)]))).2.1
    [("x", NpmModule.mk "1.2.3" none none none)] rfl

/-- Claim C4: with a falsey/empty dependency map, `updateDependencies`
removes an existing `.npm` directory by renaming it to the
uniquely-suffixed temporary name and then recursively deleting that
temporary (the recorded operation trace deletes only under the temporary
name, which differs from the real name), returning `false`; when the
directory does not exist the rename fails with `ENOENT` and the call
returns `false` with the filesystem untouched; any other rename error
propagates. -/
theorem claim_C4 :
    (∀ (env : Env) (fs : FS) (dir token : String),
      fs.existsPath dir = true →
        updateDependencies env [] dir token fs =
          .ok ((fs.renameMap dir (dir ++ "-temp-" ++ token)).rmRec
            (dir ++ "-temp-" ++ token)) false
        ∧ ((fs.renameMap dir (dir ++ "-temp-" ++ token)).rmRec
            (dir ++ "-temp-" ++ token)).existsPath dir = false
        ∧ emptyManifestOps fs dir (dir ++ "-temp-" ++ token) =
            [.rename dir (dir ++ "-temp-" ++ token), .rmRec (dir ++ "-temp-" ++ token)])
    ∧ (∀ (env : Env) (fs : FS) (dir token : String),
      fs.existsPath dir = false →
        updateDependencies env [] dir token fs = .ok fs false
        ∧ emptyManifestOps fs dir (dir ++ "-temp-" ++ token) =
            [.rename dir (dir ++ "-temp-" ++ token)])
    ∧ (∀ (fs : FS) (tmp msg : String),
        emptyBranchHandler fs tmp (.error (.other msg)) = .err fs (.fsErr (.other msg)))
    ∧ (∀ (fs : FS) (dir tmp p : String),
        FsOp.rmRec p ∈ emptyManifestOps fs dir tmp → p = tmp)
    ∧ (∀ dir token : String, dir ++ "-temp-" ++ token ≠ dir) := by
  have hlen : ∀ dir token : String, strLen dir < strLen (dir ++ "-temp-" ++ token) :=
    fun dir token => tmp_longer dir "-temp-" token (by decide)
  refine ⟨?_, ?_, ?_, ?_, ?_⟩
  · intro env fs dir token h
    refine ⟨?_, rename_rm_kills_src fs dir _ (hlen dir token), ?_⟩
    · simp [updateDependencies, FS.renameTree, h, emptyBranchHandler]
    · simp [emptyManifestOps, FS.renameTree, h]
  · intro env fs dir token h
    constructor
    · simp [updateDependencies, FS.renameTree, h, emptyBranchHandler]
    · simp [emptyManifestOps, FS.renameTree, h]
  · intro fs tmp msg
    rfl
  · intro fs dir tmp p hmem
    cases hr : fs.renameTree dir tmp with
    | ok fs1 =>
      simp [emptyManifestOps, hr] at hmem
      exact hmem
    | error e =>
      simp [emptyManifestOps, hr] at hmem
  · intro dir token he
    have := hlen dir token
    rw [he] at this
    omega

/-- Claim C4 (witness): the empty-manifest removal applied to a concrete
one-entry directory. -/
theorem claim_C4_witness :
    updateDependencies sampleEnv [] "d" "t" ⟨["d"], ["d/x"]⟩ =
      .ok ((FS.renameMap ⟨["d"], ["d/x"]⟩ "d" ("d" ++ "-temp-" ++ "t")).rmRec
        ("d" ++ "-temp-" ++ "t")) false
    ∧ ((FS.renameMap ⟨["d"], ["d/x"]⟩ "d" ("d" ++ "-temp-" ++ "t")).rmRec
        ("d" ++ "-temp-" ++ "t")).existsPath "d" = false :=
  ⟨(claim_C4.1 sampleEnv ⟨["d"], ["d/x"]⟩ "d" "t" (by decide)).1,
   (claim_C4.1 sampleEnv ⟨["d"], ["d/x"]⟩ "d" "t" (by decide)).2.1⟩

/-- Claim C7: a non-empty manifest against an existing `.npm` directory
that lacks its `npm-shrinkwrap.json` lock marker makes `updateDependencies`
recursively delete the directory and take the fresh-creation path
(`createFreshNpmDirectory`), not the incremental-update path. -/
theorem claim_C7 (env : Env) (manifest : List (String × String)) (dir token : String)
    (fs : FS)
    (hne : manifest.isEmpty = false)
    (hdir : fs.existsPath dir = true)
    (hsw : fs.existsPath (dir ++ "/npm-shrinkwrap.json") = false) :
    corruptionSweep fs dir = fs.rmRec dir
    ∧ (fs.rmRec dir).existsPath dir = false
    ∧ updateDependencies env manifest dir token fs =
        catchNpmFailure (createFreshNpmDirectory env manifest dir (fs.rmRec dir)) := by
  have h1 : corruptionSweep fs dir = fs.rmRec dir := by
    simp [corruptionSweep, hdir, hsw]
  have h2 : (fs.rmRec dir).existsPath dir = false := by
    rw [rmRec_existsPath]
    simp [pathUnder_self]
  refine ⟨h1, h2, ?_⟩
  simp [updateDependencies, hne, h1, h2]

/-- Claim C7 (witness): corruption recovery on a concrete directory
without a lock marker. -/
theorem claim_C7_witness :
    corruptionSweep ⟨["d"], []⟩ "d" = FS.rmRec ⟨["d"], []⟩ "d"
    ∧ (FS.rmRec ⟨["d"], []⟩ "d").existsPath "d" = false
    ∧ updateDependencies sampleEnv [("a", "1.0.0")] "d" "t" ⟨["d"], []⟩ =
        catchNpmFailure
          (createFreshNpmDirectory sampleEnv [("a", "1.0.0")] "d" (FS.rmRec ⟨["d"], []⟩ "d")) :=
  claim_C7 sampleEnv [("a", "1.0.0")] "d" "t" ⟨["d"], []⟩ rfl (by decide) (by decide)

/-- Claim C8: during an incremental update, a stale `.node_version` stamp
makes the engine delete exactly the `node_modules` subtree: the stamp
check step returns the filesystem with that subtree recursively removed,
every path outside the subtree is untouched, and every path inside it is
gone. -/
theorem claim_C8 (env : Env) (fs : FS) (dir oldV : String)
    (hread : env.nodeVersionRead = .ok oldV)
    (hstale : oldV ≠ currentNodeCompatibilityVersion env.processVersion)
    (hnm : fs.existsPath (dir ++ "/node_modules") = true) :
    stampCheck env fs dir = .ok (fs.rmRec (dir ++ "/node_modules")) ()
    ∧ (∀ p, pathUnder p (dir ++ "/node_modules") = false →
        (fs.rmRec (dir ++ "/node_modules")).existsPath p = fs.existsPath p)
    ∧ (∀ p, pathUnder p (dir ++ "/node_modules") = true →
        (fs.rmRec (dir ++ "/node_modules")).existsPath p = false) := by
  refine ⟨?_, ?_, ?_⟩
  · simp [stampCheck, hnm, readOldNodeVersion, hread, hstale]
  · intro p hp
    rw [rmRec_existsPath, hp]
    simp
  · intro p hp
    rw [rmRec_existsPath, hp]
    simp

/-- Claim C8 (witness): the stale-stamp deletion on a concrete tree,
keeping the top-level lock file and removing an installed file. -/
theorem claim_C8_witness :
    stampCheck envStale fsFull "d" = .ok (fsFull.rmRec ("d" ++ "/node_modules")) ()
    ∧ (fsFull.rmRec ("d" ++ "/node_modules")).existsPath "d/npm-shrinkwrap.json" =
        fsFull.existsPath "d/npm-shrinkwrap.json"
    ∧ (fsFull.rmRec ("d" ++ "/node_modules")).existsPath "d/node_modules/x" = false :=
  ⟨(claim_C8 envStale fsFull "d" "v0.10.*\n" rfl (by decide) (by decide)).1,
   (claim_C8 envStale fsFull "d" "v0.10.*\n" rfl (by decide) (by decide)).2.1
     "d/npm-shrinkwrap.json" (by decide),
   (claim_C8 envStale fsFull "d" "v0.10.*\n" rfl (by decide) (by decide)).2.2
     "d/node_modules/x" (by decide)⟩

/-- Claim C10: when `node_modules` exists but the `.node_version` stamp
read fails with `ENOENT`, the stamped version is taken to be the fixed
fallback `v0.8.24`, so `node_modules` is deleted exactly when the current
node compatibility version differs from `v0.8.24`; a read error other
than `ENOENT` propagates. -/
theorem claim_C10 :
    (∀ env : Env, env.nodeVersionRead = .error .enoent →
        readOldNodeVersion env = .ok "v0.8.24")
    ∧ (∀ (env : Env) (fs : FS) (dir : String),
      env.nodeVersionRead = .error .enoent →
      fs.existsPath (dir ++ "/node_modules") = true →
      currentNodeCompatibilityVersion env.processVersion ≠ "v0.8.24" →
        stampCheck env fs dir = .ok (fs.rmRec (dir ++ "/node_modules")) ())
    ∧ (∀ (env : Env) (fs : FS) (dir : String),
      env.nodeVersionRead = .error .enoent →
      fs.existsPath (dir ++ "/node_modules") = true →
      currentNodeCompatibilityVersion env.processVersion = "v0.8.24" →
        stampCheck env fs dir = .ok fs ())
    ∧ (∀ (env : Env) (fs : FS) (dir msg : String),
      env.nodeVersionRead = .error (.other msg) →
      fs.existsPath (dir ++ "/node_modules") = true →
        stampCheck env fs dir = .err fs (.fsErr (.other msg))) := by
  refine ⟨?_, ?_, ?_, ?_⟩
  · intro env h
    simp [readOldNodeVersion, h]
  · intro env fs dir h hnm hcur
    simp [stampCheck, hnm, readOldNodeVersion, h, Ne.symm hcur]
  · intro env fs dir h hnm hcur
    simp [stampCheck, hnm, readOldNodeVersion, h, hcur]
  · intro env fs dir msg h hnm
    simp [stampCheck, hnm, readOldNodeVersion, h]

/-- Claim C10 (witness): the `ENOENT` fallback deletes a concrete
`node_modules` (the current compatibility version is not `v0.8.24`), and a
non-`ENOENT` read error propagates. -/
theorem claim_C10_witness :
    readOldNodeVersion sampleEnv = .ok "v0.8.24"
    ∧ stampCheck sampleEnv fsFull "d" = .ok (fsFull.rmRec ("d" ++ "/node_modules")) ()
    ∧ stampCheck envReadFail fsFull "d" = .err fsFull (.fsErr (.other "EACCES")) :=
  ⟨claim_C10.1 sampleEnv rfl,
   claim_C10.2.1 sampleEnv fsFull "d" rfl (by decide) (by decide),
   claim_C10.2.2.2 envReadFail fsFull "d" "EACCES" rfl (by decide)⟩

/-- Claim C6: the colon-in-filename check runs exactly when the host
platform is not `win32`: on `win32` the install step succeeds regardless
of colon paths, on other hosts a non-empty colon-path list under
`node_modules` aborts the install step with the recoverable failure, and
the offending-path report holds at most the first 10 paths plus one line
with the exact count of the omitted remainder. -/
theorem claim_C6 :
    (∀ (env : Env) (manifest : List (String × String)) (dir : String) (fs : FS),
      env.platform = "win32" → env.online = true → env.installOk = true →
        installNpmModules env manifest dir fs =
          .ok (env.installEffect
            ((fs.mkdirp (dir ++ "/node_modules")).writeFile (dir ++ "/package.json"))) ())
    ∧ (∀ (env : Env) (manifest : List (String × String)) (dir : String) (fs : FS),
      env.platform ≠ "win32" → env.online = true → env.installOk = true →
      colonPaths
          (env.installEffect
            ((fs.mkdirp (dir ++ "/node_modules")).writeFile (dir ++ "/package.json")))
          (dir ++ "/node_modules") ≠ [] →
        installNpmModules env manifest dir fs =
          .err (env.installEffect
              ((fs.mkdirp (dir ++ "/node_modules")).writeFile (dir ++ "/package.json")))
            .npmFailure)
    ∧ (∀ paths : List String,
        (colonReport paths).length ≤ 11
        ∧ (paths.length ≤ 10 → colonReport paths = paths)
        ∧ (10 < paths.length →
            colonReport paths =
              paths.take 10 ++ ["... " ++ toString (paths.length - 10) ++ " paths omitted."]
            ∧ 10 + (paths.length - 10) = paths.length)) := by
  refine ⟨?_, ?_, ?_⟩
  · intro env manifest dir fs hp ho hi
    simp [installNpmModules, ensureConnected, ho, hi, hp]
  · intro env manifest dir fs hp ho hi hcp
    simp [installNpmModules, ensureConnected, ho, hi, bne_iff_ne, hp, List.isEmpty_iff, hcp]
  · intro paths
    refine ⟨?_, ?_, ?_⟩
    · by_cases h : paths.length > 10 <;> simp [colonReport, h, List.length_take]
    · intro h
      simp [colonReport, Nat.not_lt.mpr h, List.take_of_length_le h]
    · intro h
      refine ⟨by simp [colonReport, h], by omega⟩

/-- Claim C6 (witness): the colon tree passes on `win32`, fails on a Unix
host, and a 12-path report stays within 11 lines. -/
theorem claim_C6_witness :
    installNpmModules sampleEnvWin [] "d" fsColon =
      .ok (sampleEnvWin.installEffect
        ((fsColon.mkdirp ("d" ++ "/node_modules")).writeFile ("d" ++ "/package.json"))) ()
    ∧ installNpmModules sampleEnv [] "d" fsColon =
        .err (sampleEnv.installEffect
            ((fsColon.mkdirp ("d" ++ "/node_modules")).writeFile ("d" ++ "/package.json")))
          .npmFailure
    ∧ (colonReport ["a", "b", "c", "e", "f", "g", "h", "i", "j", "k", "l", "m"]).length ≤ 11 :=
  ⟨claim_C6.1 sampleEnvWin [] "d" fsColon rfl rfl rfl,
   claim_C6.2.1 sampleEnv [] "d" fsColon (by decide) rfl rfl (by decide),
   (claim_C6.2.2 ["a", "b", "c", "e", "f", "g", "h", "i", "j", "k", "l", "m"]).1⟩

/-- Claim C5: evaluating the engine at a recoverable environment failure
(the connectivity probe fails while updating an existing directory that
had no `node_modules`) shows `updateDependencies` returning `false` with
the directory modified, not rolled back: `node_modules` has been created
and `package.json` rewritten before the abort, although neither existed
before the call. -/
theorem claim_C5_code_bug :
    envOff.online = false
    ∧ updateDependencies envOff [("tar", "0.1.6")] "d" "t" fsLock =
        .ok ⟨["d/node_modules", "d"], ["d/package.json", "d/npm-shrinkwrap.json"]⟩ false
    ∧ (⟨["d/node_modules", "d"], ["d/package.json", "d/npm-shrinkwrap.json"]⟩ : FS) ≠ fsLock
    ∧ fsLock.existsPath "d/package.json" = false
    ∧ fsLock.existsPath "d/node_modules" = false := by
  refine ⟨rfl, by decide, by decide, by decide, by decide⟩

end MeteorNpm
